import Mathlib

/-!
Verification development for the Ortelius v11 Scorecard microservice
(`main.go`).  The Go functions `cleanRepoURL`, `parseScoreCard`,
`fetchScoreCardWithCLI` and the handler `getScorecard` are shallowly
embedded below.  Numeric scores (Go `float32` / `float64` / `int`) are
modelled as rationals, since the code only copies and compares them and
performs no floating-point arithmetic.  The external JSON decoder
(`encoding/json`) is modelled by passing the decode outcome as an
`Option`: `none` stands for a byte sequence on which `json.Unmarshal`
fails, `some r` for a byte sequence decoding to `r`.
-/

/-- Model of `model.Scorecard` (ortelius/scec-commons), restricted to the
fields this service reads or writes.  Go zero values are the defaults:
`0` for numbers, `false` for booleans, `""` for strings. -/
structure Scorecard where
  Score : Rat := 0
  Pinned : Bool := false
  CommitSha : String := ""
  Maintained : Rat := 0
  CodeReview : Rat := 0
  CIIBestPractices : Rat := 0
  License : Rat := 0
  SignedReleases : Rat := 0
  DangerousWorkflow : Rat := 0
  Packaging : Rat := 0
  TokenPermissions : Rat := 0
  BranchProtection : Rat := 0
  BinaryArtifacts : Rat := 0
  PinnedDependencies : Rat := 0
  SecurityPolicy : Rat := 0
  Fuzzing : Rat := 0
  SAST : Rat := 0
  Vulnerabilities : Rat := 0
  CITests : Rat := 0
  Contributors : Rat := 0
  DependencyUpdateTool : Rat := 0
  SBOM : Rat := 0
  Webhooks : Rat := 0
deriving DecidableEq

/-- Model of `ossf.JSONRepoV2` (the `Repo` object of the upstream
schema), restricted to the fields the service reads. -/
structure JSONRepoV2 where
  Name : String := ""
  Commit : String := ""
deriving DecidableEq

/-- Model of one entry of the upstream `Checks` collection
(`{name, score}`), restricted to the fields the service reads. -/
structure JSONCheckResultV2 where
  Name : String := ""
  Score : Rat := 0
deriving DecidableEq

/-- Model of `ossf.JSONScorecardResultV2`, restricted to the fields the
service reads: the repository object, the aggregate score and the
ordered checks collection. -/
structure JSONScorecardResultV2 where
  Repo : JSONRepoV2 := {}
  AggregateScore : Rat := 0
  Checks : List JSONCheckResultV2 := []
deriving DecidableEq

/-- Does the character list `s` start with the pattern `p`?
(Helper for the model of Go `strings` functions.) -/
def beginsWith : List Char → List Char → Bool
  | [], _ => true
  | _ :: _, [] => false
  | p :: ps, c :: cs => p == c && beginsWith ps cs

/-- Does the character list `s` contain `sub` as a contiguous
subsequence?  Models Go `strings.Contains` on the underlying bytes. -/
def containsSub : List Char → List Char → Bool
  | s, sub =>
    if beginsWith sub s then true
    else
      match s with
      | [] => false
      | _ :: rest => containsSub rest sub

/-- Model of Go `strings.Contains(s, sub)`. -/
def stringContains (s sub : String) : Bool :=
  containsSub s.data sub.data

/-- Fuel-indexed worker for `stringReplaceAll`: replaces every
non-overlapping occurrence of `old` in `s`, scanning left to right, by
`new`.  The fuel (always instantiated with the length of `s`, which
bounds the recursion depth) only makes the recursion structural. -/
def replaceAllAux (old new : List Char) : Nat → List Char → List Char
  | 0, s => s
  | _ + 1, [] => []
  | fuel + 1, c :: rest =>
    if old ≠ [] ∧ beginsWith old (c :: rest) then
      new ++ replaceAllAux old new fuel ((c :: rest).drop old.length)
    else
      c :: replaceAllAux old new fuel rest

/-- Model of Go `strings.ReplaceAll(s, old, new)` for non-empty `old`
(every pattern the program uses is non-empty): each non-overlapping
occurrence of `old`, found scanning left to right, is replaced by
`new`. -/
def stringReplaceAll (s old new : String) : String :=
  ⟨replaceAllAux old.data new.data s.data.length s.data⟩

/-- The seven `{old, new}` replacement pairs of `cleanRepoURL`, in the
order the Go code lists them. -/
def replacements : List (String × String) :=
  [("git+ssh://git@", ""),
   ("git+https://", ""),
   ("http://", ""),
   ("https://", ""),
   ("git:", ""),
   ("git+", ""),
   (".git", "")]

/-- Applies a list of replacement pairs to `repoURL`, left to right,
each globally — the loop body of `cleanRepoURL`. -/
def applyReplacements (l : List (String × String)) (repoURL : String) : String :=
  l.foldl (fun acc repl => stringReplaceAll acc repl.1 repl.2) repoURL

/-- Model of `cleanRepoURL`: strips transport prefixes and the `.git`
suffix by the fixed sequence of global substring replacements. -/
def cleanRepoURL (repoURL : String) : String :=
  applyReplacements replacements repoURL

/-- The same seven replacement pairs with `git+` moved to the front —
one particular permutation of `replacements`, used to probe whether the
order of the replacement passes matters. -/
def permutedReplacements : List (String × String) :=
  [("git+", ""),
   ("git+ssh://git@", ""),
   ("git+https://", ""),
   ("http://", ""),
   ("https://", ""),
   ("git:", ""),
   (".git", "")]

/-- Body of the `for _, check := range result.Checks` loop of
`parseScoreCard`: the `switch` on the check name, assigning the check's
score to the matching `Scorecard` field and ignoring unknown names. -/
def applyCheckParse (scorecard : Scorecard) (check : JSONCheckResultV2) : Scorecard :=
  if check.Name = "Maintained" then { scorecard with Maintained := check.Score }
  else if check.Name = "Code-Review" then { scorecard with CodeReview := check.Score }
  else if check.Name = "CII-Best-Practices" then { scorecard with CIIBestPractices := check.Score }
  else if check.Name = "License" then { scorecard with License := check.Score }
  else if check.Name = "Signed-Releases" then { scorecard with SignedReleases := check.Score }
  else if check.Name = "Dangerous-Workflow" then { scorecard with DangerousWorkflow := check.Score }
  else if check.Name = "Packaging" then { scorecard with Packaging := check.Score }
  else if check.Name = "Token-Permissions" then { scorecard with TokenPermissions := check.Score }
  else if check.Name = "Branch-Protection" then { scorecard with BranchProtection := check.Score }
  else if check.Name = "Binary-Artifacts" then { scorecard with BinaryArtifacts := check.Score }
  else if check.Name = "Pinned-Dependencies" then { scorecard with PinnedDependencies := check.Score }
  else if check.Name = "Security-Policy" then { scorecard with SecurityPolicy := check.Score }
  else if check.Name = "Fuzzing" then { scorecard with Fuzzing := check.Score }
  else if check.Name = "SAST" then { scorecard with SAST := check.Score }
  else if check.Name = "Vulnerabilities" then { scorecard with Vulnerabilities := check.Score }
  else if check.Name = "CI-Tests" then { scorecard with CITests := check.Score }
  else if check.Name = "Contributors" then { scorecard with Contributors := check.Score }
  else if check.Name = "Dependency-Update-Tool" then { scorecard with DependencyUpdateTool := check.Score }
  else if check.Name = "SBOM" then { scorecard with SBOM := check.Score }
  else if check.Name = "Webhooks" then { scorecard with Webhooks := check.Score }
  else scorecard

/-- Model of `parseScoreCard(resp, commitSha)`.  The response body's
decode outcome stands in for the raw bytes: `none` when
`json.Unmarshal` fails (the function then returns the zero
`Scorecard`), `some result` when it decodes to `result`. -/
def parseScoreCard (body : Option JSONScorecardResultV2) (commitSha : String) : Scorecard :=
  match body with
  | none => {}
  | some result =>
    let scorecard0 : Scorecard := {}
    let scorecard1 : Scorecard :=
      if result.Repo.Commit = commitSha then
        { scorecard0 with Pinned := true, CommitSha := commitSha }
      else scorecard0
    let scorecard2 : Scorecard := { scorecard1 with Score := result.AggregateScore }
    result.Checks.foldl applyCheckParse scorecard2

/-- Outcome of the `scorecard` subprocess in `fetchScoreCardWithCLI`:
either `cmd.Run()` fails, or it succeeds and its captured stdout either
fails to decode (`output none`) or decodes to a result
(`output (some r)`). -/
inductive CLIOutcome where
  | runError : CLIOutcome
  | output : Option JSONScorecardResultV2 → CLIOutcome
deriving DecidableEq

/-- Body of the `for _, check := range result.Checks` loop of
`fetchScoreCardWithCLI` — the Go source duplicates the `switch` of
`parseScoreCard` verbatim, so this definition duplicates
`applyCheckParse`. -/
def applyCheckCLI (scorecard : Scorecard) (check : JSONCheckResultV2) : Scorecard :=
  if check.Name = "Maintained" then { scorecard with Maintained := check.Score }
  else if check.Name = "Code-Review" then { scorecard with CodeReview := check.Score }
  else if check.Name = "CII-Best-Practices" then { scorecard with CIIBestPractices := check.Score }
  else if check.Name = "License" then { scorecard with License := check.Score }
  else if check.Name = "Signed-Releases" then { scorecard with SignedReleases := check.Score }
  else if check.Name = "Dangerous-Workflow" then { scorecard with DangerousWorkflow := check.Score }
  else if check.Name = "Packaging" then { scorecard with Packaging := check.Score }
  else if check.Name = "Token-Permissions" then { scorecard with TokenPermissions := check.Score }
  else if check.Name = "Branch-Protection" then { scorecard with BranchProtection := check.Score }
  else if check.Name = "Binary-Artifacts" then { scorecard with BinaryArtifacts := check.Score }
  else if check.Name = "Pinned-Dependencies" then { scorecard with PinnedDependencies := check.Score }
  else if check.Name = "Security-Policy" then { scorecard with SecurityPolicy := check.Score }
  else if check.Name = "Fuzzing" then { scorecard with Fuzzing := check.Score }
  else if check.Name = "SAST" then { scorecard with SAST := check.Score }
  else if check.Name = "Vulnerabilities" then { scorecard with Vulnerabilities := check.Score }
  else if check.Name = "CI-Tests" then { scorecard with CITests := check.Score }
  else if check.Name = "Contributors" then { scorecard with Contributors := check.Score }
  else if check.Name = "Dependency-Update-Tool" then { scorecard with DependencyUpdateTool := check.Score }
  else if check.Name = "SBOM" then { scorecard with SBOM := check.Score }
  else if check.Name = "Webhooks" then { scorecard with Webhooks := check.Score }
  else scorecard

/-- Model of `fetchScoreCardWithCLI(repoURL, commitSha)`.  The
subprocess interaction is abstracted into its outcome: on `cmd.Run()`
error the zero `Scorecard` is returned; otherwise the captured stdout
is decoded and mapped exactly as in `parseScoreCard` (the Go source
repeats that code verbatim). -/
def fetchScoreCardWithCLI (outcome : CLIOutcome) (commitSha : String) : Scorecard :=
  match outcome with
  | CLIOutcome.runError => {}
  | CLIOutcome.output decoded =>
    match decoded with
    | none => {}
    | some result =>
      let scorecard0 : Scorecard := {}
      let scorecard1 : Scorecard :=
        if result.Repo.Commit = commitSha then
          { scorecard0 with Pinned := true, CommitSha := commitSha }
        else scorecard0
      let scorecard2 : Scorecard := { scorecard1 with Score := result.AggregateScore }
      result.Checks.foldl applyCheckCLI scorecard2

/-- Outcome of one remote HTTP lookup (`client.R().Get(...)`): the
transport may fail (`err != nil`), or a response arrives with a status
code and a body whose decode outcome is carried as in
`parseScoreCard`. -/
inductive HTTPResult where
  | transportError : HTTPResult
  | response : Nat → Option JSONScorecardResultV2 → HTTPResult
deriving DecidableEq

/-- Environment of one `getScorecard` request: the `GITHUB_TOKEN`
variable, the outcome of the first remote lookup, the outcome of the
retry-without-commit lookup, and the outcome of the CLI subprocess
(each consulted only if the corresponding tier is reached). -/
structure Env where
  token : String
  firstResp : HTTPResult
  secondResp : HTTPResult
  cli : CLIOutcome
deriving DecidableEq

/-- Result of resolving one request: the returned `Scorecard` together
with how many remote HTTP lookups were issued and how many times the
CLI subprocess was invoked. -/
structure ResolveTrace where
  scorecard : Scorecard
  httpCalls : Nat
  cliCalls : Nat
deriving DecidableEq

/-- Does an `HTTPResult` carry status 200 (`fiber.StatusOK`)? -/
def statusOK : HTTPResult → Bool
  | HTTPResult.transportError => false
  | HTTPResult.response status _ => status == 200

/-- The final fallback tier of `getScorecard` (lines 89–94): if
`GITHUB_TOKEN` is non-empty, the cleaned URL contains `github.com` and
a commit was requested, invoke the CLI; otherwise return the zero
`Scorecard`.  `calls` is the number of HTTP lookups already issued. -/
def finalTier (env : Env) (githubURL commitSha : String) (calls : Nat) : ResolveTrace :=
  if env.token ≠ "" ∧ stringContains githubURL "github.com" = true ∧ commitSha ≠ "" then
    { scorecard := fetchScoreCardWithCLI env.cli commitSha, httpCalls := calls, cliCalls := 1 }
  else
    { scorecard := {}, httpCalls := calls, cliCalls := 0 }

/-- Model of the handler `getScorecard`: empty `repoURL` short-circuits;
otherwise the first remote lookup is issued (transport failure yields
the zero `Scorecard`), a 200 response is mapped with the requested
commit; on non-200 and a non-empty requested commit the lookup is
retried without the commit parameter and a 200 retry response is mapped
with the original requested commit; otherwise control falls through to
the final CLI tier. -/
def getScorecard (env : Env) (repoURL commitSha : String) : ResolveTrace :=
  if repoURL = "" then
    { scorecard := {}, httpCalls := 0, cliCalls := 0 }
  else
    let githubURL := cleanRepoURL repoURL
    match env.firstResp with
    | HTTPResult.transportError => { scorecard := {}, httpCalls := 1, cliCalls := 0 }
    | HTTPResult.response status body =>
      if status = 200 then
        { scorecard := parseScoreCard body commitSha, httpCalls := 1, cliCalls := 0 }
      else if commitSha ≠ "" then
        match env.secondResp with
        | HTTPResult.transportError => { scorecard := {}, httpCalls := 2, cliCalls := 0 }
        | HTTPResult.response status2 body2 =>
          if status2 = 200 then
            { scorecard := parseScoreCard body2 commitSha, httpCalls := 2, cliCalls := 0 }
          else
            finalTier env githubURL commitSha 2
      else
        finalTier env githubURL commitSha 1

/-- The check-name-to-field table of the `switch` statements: the 20
recognised check names paired with the `Scorecard` field each one is
assigned to, in source order. -/
def checkFields : List (String × (Scorecard → Rat)) :=
  [("Maintained", Scorecard.Maintained),
   ("Code-Review", Scorecard.CodeReview),
   ("CII-Best-Practices", Scorecard.CIIBestPractices),
   ("License", Scorecard.License),
   ("Signed-Releases", Scorecard.SignedReleases),
   ("Dangerous-Workflow", Scorecard.DangerousWorkflow),
   ("Packaging", Scorecard.Packaging),
   ("Token-Permissions", Scorecard.TokenPermissions),
   ("Branch-Protection", Scorecard.BranchProtection),
   ("Binary-Artifacts", Scorecard.BinaryArtifacts),
   ("Pinned-Dependencies", Scorecard.PinnedDependencies),
   ("Security-Policy", Scorecard.SecurityPolicy),
   ("Fuzzing", Scorecard.Fuzzing),
   ("SAST", Scorecard.SAST),
   ("Vulnerabilities", Scorecard.Vulnerabilities),
   ("CI-Tests", Scorecard.CITests),
   ("Contributors", Scorecard.Contributors),
   ("Dependency-Update-Tool", Scorecard.DependencyUpdateTool),
   ("SBOM", Scorecard.SBOM),
   ("Webhooks", Scorecard.Webhooks)]

/-- The recognised check names, in source order. -/
def checkNames : List String :=
  checkFields.map Prod.fst

/-- The last entry of `checks` whose name is `n`, if any — the entry
whose score survives the mapping loop for the field named `n`. -/
def lastMatching (n : String) (checks : List JSONCheckResultV2) : Option JSONCheckResultV2 :=
  checks.reverse.find? (fun check => check.Name == n)

/-- The two copies of the check-mapping loop body are the same
function: the Go source duplicates the `switch` verbatim. -/
theorem applyCheckCLI_eq_applyCheckParse : applyCheckCLI = applyCheckParse := rfl

/-- On a decoded body, `fetchScoreCardWithCLI` maps exactly as
`parseScoreCard` does. -/
theorem fetchCLI_output_eq_parse (body : Option JSONScorecardResultV2) (commitSha : String) :
    fetchScoreCardWithCLI (CLIOutcome.output body) commitSha = parseScoreCard body commitSha := by
  cases body with
  | none => rfl
  | some result =>
    show List.foldl applyCheckCLI _ _ = List.foldl applyCheckParse _ _
    rw [applyCheckCLI_eq_applyCheckParse]

/-- The mapping loop never touches the `Pinned` field. -/
theorem applyCheckParse_Pinned (scorecard : Scorecard) (check : JSONCheckResultV2) :
    (applyCheckParse scorecard check).Pinned = scorecard.Pinned := by
  unfold applyCheckParse
  simp only [apply_ite Scorecard.Pinned, ite_self]

/-- The mapping loop never touches the `CommitSha` field. -/
theorem applyCheckParse_CommitSha (scorecard : Scorecard) (check : JSONCheckResultV2) :
    (applyCheckParse scorecard check).CommitSha = scorecard.CommitSha := by
  unfold applyCheckParse
  simp only [apply_ite Scorecard.CommitSha, ite_self]

/-- The mapping loop body writes the `Maintained` field exactly when the
check is named `"Maintained"`. -/
theorem applyCheckParse_Maintained (scorecard : Scorecard) (check : JSONCheckResultV2) :
    (applyCheckParse scorecard check).Maintained
      = if check.Name = "Maintained" then check.Score else scorecard.Maintained := by
  unfold applyCheckParse
  simp only [apply_ite Scorecard.Maintained, ite_self] <;>
    (by_cases h : check.Name = "Maintained" <;> simp [h])

/-- The mapping loop body writes the `CodeReview` field exactly when the
check is named `"Code-Review"`. -/
theorem applyCheckParse_CodeReview (scorecard : Scorecard) (check : JSONCheckResultV2) :
    (applyCheckParse scorecard check).CodeReview
      = if check.Name = "Code-Review" then check.Score else scorecard.CodeReview := by
  unfold applyCheckParse
  simp only [apply_ite Scorecard.CodeReview, ite_self] <;>
    (by_cases h : check.Name = "Code-Review" <;> simp [h])

/-- The mapping loop body writes the `CIIBestPractices` field exactly when the
check is named `"CII-Best-Practices"`. -/
theorem applyCheckParse_CIIBestPractices (scorecard : Scorecard) (check : JSONCheckResultV2) :
    (applyCheckParse scorecard check).CIIBestPractices
      = if check.Name = "CII-Best-Practices" then check.Score else scorecard.CIIBestPractices := by
  unfold applyCheckParse
  simp only [apply_ite Scorecard.CIIBestPractices, ite_self] <;>
    (by_cases h : check.Name = "CII-Best-Practices" <;> simp [h])

/-- The mapping loop body writes the `License` field exactly when the
check is named `"License"`. -/
theorem applyCheckParse_License (scorecard : Scorecard) (check : JSONCheckResultV2) :
    (applyCheckParse scorecard check).License
      = if check.Name = "License" then check.Score else scorecard.License := by
  unfold applyCheckParse
  simp only [apply_ite Scorecard.License, ite_self] <;>
    (by_cases h : check.Name = "License" <;> simp [h])

/-- The mapping loop body writes the `SignedReleases` field exactly when the
check is named `"Signed-Releases"`. -/
theorem applyCheckParse_SignedReleases (scorecard : Scorecard) (check : JSONCheckResultV2) :
    (applyCheckParse scorecard check).SignedReleases
      = if check.Name = "Signed-Releases" then check.Score else scorecard.SignedReleases := by
  unfold applyCheckParse
  simp only [apply_ite Scorecard.SignedReleases, ite_self] <;>
    (by_cases h : check.Name = "Signed-Releases" <;> simp [h])

/-- The mapping loop body writes the `DangerousWorkflow` field exactly when the
check is named `"Dangerous-Workflow"`. -/
theorem applyCheckParse_DangerousWorkflow (scorecard : Scorecard) (check : JSONCheckResultV2) :
    (applyCheckParse scorecard check).DangerousWorkflow
      = if check.Name = "Dangerous-Workflow" then check.Score else scorecard.DangerousWorkflow := by
  unfold applyCheckParse
  simp only [apply_ite Scorecard.DangerousWorkflow, ite_self] <;>
    (by_cases h : check.Name = "Dangerous-Workflow" <;> simp [h])

/-- The mapping loop body writes the `Packaging` field exactly when the
check is named `"Packaging"`. -/
theorem applyCheckParse_Packaging (scorecard : Scorecard) (check : JSONCheckResultV2) :
    (applyCheckParse scorecard check).Packaging
      = if check.Name = "Packaging" then check.Score else scorecard.Packaging := by
  unfold applyCheckParse
  simp only [apply_ite Scorecard.Packaging, ite_self] <;>
    (by_cases h : check.Name = "Packaging" <;> simp [h])

/-- The mapping loop body writes the `TokenPermissions` field exactly when the
check is named `"Token-Permissions"`. -/
theorem applyCheckParse_TokenPermissions (scorecard : Scorecard) (check : JSONCheckResultV2) :
    (applyCheckParse scorecard check).TokenPermissions
      = if check.Name = "Token-Permissions" then check.Score else scorecard.TokenPermissions := by
  unfold applyCheckParse
  simp only [apply_ite Scorecard.TokenPermissions, ite_self] <;>
    (by_cases h : check.Name = "Token-Permissions" <;> simp [h])

/-- The mapping loop body writes the `BranchProtection` field exactly when the
check is named `"Branch-Protection"`. -/
theorem applyCheckParse_BranchProtection (scorecard : Scorecard) (check : JSONCheckResultV2) :
    (applyCheckParse scorecard check).BranchProtection
      = if check.Name = "Branch-Protection" then check.Score else scorecard.BranchProtection := by
  unfold applyCheckParse
  simp only [apply_ite Scorecard.BranchProtection, ite_self] <;>
    (by_cases h : check.Name = "Branch-Protection" <;> simp [h])

/-- The mapping loop body writes the `BinaryArtifacts` field exactly when the
check is named `"Binary-Artifacts"`. -/
theorem applyCheckParse_BinaryArtifacts (scorecard : Scorecard) (check : JSONCheckResultV2) :
    (applyCheckParse scorecard check).BinaryArtifacts
      = if check.Name = "Binary-Artifacts" then check.Score else scorecard.BinaryArtifacts := by
  unfold applyCheckParse
  simp only [apply_ite Scorecard.BinaryArtifacts, ite_self] <;>
    (by_cases h : check.Name = "Binary-Artifacts" <;> simp [h])

/-- The mapping loop body writes the `PinnedDependencies` field exactly when the
check is named `"Pinned-Dependencies"`. -/
theorem applyCheckParse_PinnedDependencies (scorecard : Scorecard) (check : JSONCheckResultV2) :
    (applyCheckParse scorecard check).PinnedDependencies
      = if check.Name = "Pinned-Dependencies" then check.Score else scorecard.PinnedDependencies := by
  unfold applyCheckParse
  simp only [apply_ite Scorecard.PinnedDependencies, ite_self] <;>
    (by_cases h : check.Name = "Pinned-Dependencies" <;> simp [h])

/-- The mapping loop body writes the `SecurityPolicy` field exactly when the
check is named `"Security-Policy"`. -/
theorem applyCheckParse_SecurityPolicy (scorecard : Scorecard) (check : JSONCheckResultV2) :
    (applyCheckParse scorecard check).SecurityPolicy
      = if check.Name = "Security-Policy" then check.Score else scorecard.SecurityPolicy := by
  unfold applyCheckParse
  simp only [apply_ite Scorecard.SecurityPolicy, ite_self] <;>
    (by_cases h : check.Name = "Security-Policy" <;> simp [h])

/-- The mapping loop body writes the `Fuzzing` field exactly when the
check is named `"Fuzzing"`. -/
theorem applyCheckParse_Fuzzing (scorecard : Scorecard) (check : JSONCheckResultV2) :
    (applyCheckParse scorecard check).Fuzzing
      = if check.Name = "Fuzzing" then check.Score else scorecard.Fuzzing := by
  unfold applyCheckParse
  simp only [apply_ite Scorecard.Fuzzing, ite_self] <;>
    (by_cases h : check.Name = "Fuzzing" <;> simp [h])

/-- The mapping loop body writes the `SAST` field exactly when the
check is named `"SAST"`. -/
theorem applyCheckParse_SAST (scorecard : Scorecard) (check : JSONCheckResultV2) :
    (applyCheckParse scorecard check).SAST
      = if check.Name = "SAST" then check.Score else scorecard.SAST := by
  unfold applyCheckParse
  simp only [apply_ite Scorecard.SAST, ite_self] <;>
    (by_cases h : check.Name = "SAST" <;> simp [h])

/-- The mapping loop body writes the `Vulnerabilities` field exactly when the
check is named `"Vulnerabilities"`. -/
theorem applyCheckParse_Vulnerabilities (scorecard : Scorecard) (check : JSONCheckResultV2) :
    (applyCheckParse scorecard check).Vulnerabilities
      = if check.Name = "Vulnerabilities" then check.Score else scorecard.Vulnerabilities := by
  unfold applyCheckParse
  simp only [apply_ite Scorecard.Vulnerabilities, ite_self] <;>
    (by_cases h : check.Name = "Vulnerabilities" <;> simp [h])

/-- The mapping loop body writes the `CITests` field exactly when the
check is named `"CI-Tests"`. -/
theorem applyCheckParse_CITests (scorecard : Scorecard) (check : JSONCheckResultV2) :
    (applyCheckParse scorecard check).CITests
      = if check.Name = "CI-Tests" then check.Score else scorecard.CITests := by
  unfold applyCheckParse
  simp only [apply_ite Scorecard.CITests, ite_self] <;>
    (by_cases h : check.Name = "CI-Tests" <;> simp [h])

/-- The mapping loop body writes the `Contributors` field exactly when the
check is named `"Contributors"`. -/
theorem applyCheckParse_Contributors (scorecard : Scorecard) (check : JSONCheckResultV2) :
    (applyCheckParse scorecard check).Contributors
      = if check.Name = "Contributors" then check.Score else scorecard.Contributors := by
  unfold applyCheckParse
  simp only [apply_ite Scorecard.Contributors, ite_self] <;>
    (by_cases h : check.Name = "Contributors" <;> simp [h])

/-- The mapping loop body writes the `DependencyUpdateTool` field exactly when the
check is named `"Dependency-Update-Tool"`. -/
theorem applyCheckParse_DependencyUpdateTool (scorecard : Scorecard) (check : JSONCheckResultV2) :
    (applyCheckParse scorecard check).DependencyUpdateTool
      = if check.Name = "Dependency-Update-Tool" then check.Score else scorecard.DependencyUpdateTool := by
  unfold applyCheckParse
  simp only [apply_ite Scorecard.DependencyUpdateTool, ite_self] <;>
    (by_cases h : check.Name = "Dependency-Update-Tool" <;> simp [h])

/-- The mapping loop body writes the `SBOM` field exactly when the
check is named `"SBOM"`. -/
theorem applyCheckParse_SBOM (scorecard : Scorecard) (check : JSONCheckResultV2) :
    (applyCheckParse scorecard check).SBOM
      = if check.Name = "SBOM" then check.Score else scorecard.SBOM := by
  unfold applyCheckParse
  simp only [apply_ite Scorecard.SBOM, ite_self] <;>
    (by_cases h : check.Name = "SBOM" <;> simp [h])

/-- The mapping loop body writes the `Webhooks` field exactly when the
check is named `"Webhooks"`. -/
theorem applyCheckParse_Webhooks (scorecard : Scorecard) (check : JSONCheckResultV2) :
    (applyCheckParse scorecard check).Webhooks
      = if check.Name = "Webhooks" then check.Score else scorecard.Webhooks := by
  unfold applyCheckParse
  simp only [apply_ite Scorecard.Webhooks, ite_self] <;>
    (by_cases h : check.Name = "Webhooks" <;> simp [h])

/-- Table form of the twenty per-field lemmas: the field selected by
entry `i` of `checkFields` is written exactly when the check carries
that entry's name. -/
theorem applyCheckParse_field (i : Fin checkFields.length) (scorecard : Scorecard)
    (check : JSONCheckResultV2) :
    (checkFields.get i).2 (applyCheckParse scorecard check)
      = if check.Name = (checkFields.get i).1 then check.Score
        else (checkFields.get i).2 scorecard := by
  fin_cases i <;>
    simp only [checkFields, List.get, applyCheckParse_Maintained, applyCheckParse_CodeReview, applyCheckParse_CIIBestPractices, applyCheckParse_License, applyCheckParse_SignedReleases, applyCheckParse_DangerousWorkflow, applyCheckParse_Packaging, applyCheckParse_TokenPermissions, applyCheckParse_BranchProtection, applyCheckParse_BinaryArtifacts, applyCheckParse_PinnedDependencies, applyCheckParse_SecurityPolicy, applyCheckParse_Fuzzing, applyCheckParse_SAST, applyCheckParse_Vulnerabilities, applyCheckParse_CITests, applyCheckParse_Contributors, applyCheckParse_DependencyUpdateTool, applyCheckParse_SBOM, applyCheckParse_Webhooks]

/-- Folding the mapping loop over any check list preserves `Pinned`. -/
theorem foldl_applyCheckParse_Pinned (checks : List JSONCheckResultV2) (scorecard : Scorecard) :
    (checks.foldl applyCheckParse scorecard).Pinned = scorecard.Pinned := by
  induction checks generalizing scorecard with
  | nil => rfl
  | cons check rest ih => simpa [List.foldl, applyCheckParse_Pinned] using ih (applyCheckParse scorecard check)

/-- Folding the mapping loop over any check list preserves `CommitSha`. -/
theorem foldl_applyCheckParse_CommitSha (checks : List JSONCheckResultV2) (scorecard : Scorecard) :
    (checks.foldl applyCheckParse scorecard).CommitSha = scorecard.CommitSha := by
  induction checks generalizing scorecard with
  | nil => rfl
  | cons check rest ih => simpa [List.foldl, applyCheckParse_CommitSha] using ih (applyCheckParse scorecard check)

/-- Characterisation of the `Pinned` field produced by the mapper: it
records exactly whether the upstream commit equals the requested one. -/
theorem parseScoreCard_Pinned (result : JSONScorecardResultV2) (commitSha : String) :
    (parseScoreCard (some result) commitSha).Pinned = true ↔ result.Repo.Commit = commitSha := by
  by_cases h : result.Repo.Commit = commitSha <;>
    simp [parseScoreCard, foldl_applyCheckParse_Pinned, h]

/-- Characterisation of the `CommitSha` field produced by the mapper. -/
theorem parseScoreCard_CommitSha (result : JSONScorecardResultV2) (commitSha : String) :
    (parseScoreCard (some result) commitSha).CommitSha =
      if result.Repo.Commit = commitSha then commitSha else "" := by
  by_cases h : result.Repo.Commit = commitSha <;>
    simp [parseScoreCard, foldl_applyCheckParse_CommitSha, h]

/-- A check whose name is none of the twenty recognised names falls
through every branch of the `switch` and leaves the scorecard
unchanged. -/
theorem applyCheckParse_unknown (scorecard : Scorecard) (check : JSONCheckResultV2)
    (h : check.Name ∉ checkNames) : applyCheckParse scorecard check = scorecard := by
  simp only [checkNames, checkFields, List.map_cons, List.map_nil, List.mem_cons,
    List.not_mem_nil, or_false, not_or] at h
  obtain ⟨h1, h2, h3, h4, h5, h6, h7, h8, h9, h10, h11, h12, h13, h14, h15, h16, h17, h18,
    h19, h20⟩ := h
  unfold applyCheckParse
  rw [if_neg h1, if_neg h2, if_neg h3, if_neg h4, if_neg h5, if_neg h6, if_neg h7,
    if_neg h8, if_neg h9, if_neg h10, if_neg h11, if_neg h12, if_neg h13, if_neg h14,
    if_neg h15, if_neg h16, if_neg h17, if_neg h18, if_neg h19, if_neg h20]

/-- The twenty entries of the check table carry pairwise distinct
names. -/
theorem checkFields_names_inj :
    ∀ i j : Fin checkFields.length, (checkFields.get i).1 = (checkFields.get j).1 → i = j := by
  decide

/-- The check table has twenty entries. -/
theorem checkFields_length : checkFields.length = 20 := rfl

/-- Base record of the mapper (the scorecard as it stands before the
check loop runs): every check field is still zero. -/
theorem check_field_base (i : Fin checkFields.length) (b : Bool) (cs : String) (agg : Rat) :
    (checkFields.get i).2 { Pinned := b, CommitSha := cs, Score := agg } = 0 := by
  fin_cases i <;> rfl

/-- Folding the check loop over a list writes, into the field selected
by table entry `i`, the score of the last entry named after that field
— or leaves the field alone when no entry carries that name. -/
theorem foldLast (i : Fin checkFields.length) (checks : List JSONCheckResultV2)
    (scorecard : Scorecard) :
    (checkFields.get i).2 (checks.foldl applyCheckParse scorecard)
      = match lastMatching (checkFields.get i).1 checks with
        | some check => check.Score
        | none => (checkFields.get i).2 scorecard := by
  induction checks using List.reverseRecOn with
  | nil => simp [lastMatching]
  | append_singleton l check ih =>
    rw [List.foldl_append, List.foldl_cons, List.foldl_nil, applyCheckParse_field]
    by_cases h : check.Name = (checkFields.get i).1
    · rw [if_pos h]
      have hlast : lastMatching (checkFields.get i).1 (l ++ [check]) = some check := by
        simp [lastMatching, h]
      rw [hlast]
    · rw [if_neg h]
      have hb : (check.Name == (checkFields.get i).1) = false :=
        beq_eq_false_iff_ne.mpr h
      have hrev : (l ++ [check]).reverse = check :: l.reverse := by simp
      have hlast : lastMatching (checkFields.get i).1 (l ++ [check])
          = lastMatching (checkFields.get i).1 l := by
        unfold lastMatching
        rw [hrev]
        exact List.find?_cons_of_neg _ (fun hc => absurd (hb.symm.trans hc) (by decide))
      rw [hlast]
      exact ih

/-- Variant of `foldLast` for a start scorecard whose check fields are
all still zero. -/
theorem foldLast_zero (i : Fin checkFields.length) (checks : List JSONCheckResultV2)
    (scorecard : Scorecard) (hsc : (checkFields.get i).2 scorecard = 0) :
    (checkFields.get i).2 (checks.foldl applyCheckParse scorecard)
      = match lastMatching (checkFields.get i).1 checks with
        | some check => check.Score
        | none => 0 := by
  rw [foldLast]
  cases lastMatching (checkFields.get i).1 checks with
  | none => exact hsc
  | some check => rfl

/-- The check field selected by table entry `i` of a mapped result is
the score of the last upstream entry named after it, or zero when no
entry carries that name. -/
theorem parseScoreCard_field (i : Fin checkFields.length) (result : JSONScorecardResultV2)
    (commitSha : String) :
    (checkFields.get i).2 (parseScoreCard (some result) commitSha)
      = match lastMatching (checkFields.get i).1 result.Checks with
        | some check => check.Score
        | none => 0 := by
  by_cases h : result.Repo.Commit = commitSha
  · have hunfold : parseScoreCard (some result) commitSha
        = result.Checks.foldl applyCheckParse
            { Pinned := true, CommitSha := commitSha, Score := result.AggregateScore } := by
      simp [parseScoreCard, h]
    rw [hunfold, foldLast_zero i result.Checks _ (check_field_base i true commitSha result.AggregateScore)]
  · have hunfold : parseScoreCard (some result) commitSha
        = result.Checks.foldl applyCheckParse
            { Pinned := false, CommitSha := "", Score := result.AggregateScore } := by
      simp [parseScoreCard, h]
    rw [hunfold, foldLast_zero i result.Checks _ (check_field_base i false "" result.AggregateScore)]

/-- C4: for every request whose `repoURL` path parameter is empty,
resolution returns the all-zero Scorecard immediately and issues no
remote HTTP lookup (and no CLI invocation). -/
theorem claim_C4 (env : Env) (commitSha : String) :
    getScorecard env "" commitSha = { scorecard := {}, httpCalls := 0, cliCalls := 0 } := rfl

/-- C6: an undecodable body yields the empty Scorecard on both mapping
paths — the decode failure is absorbed, not propagated. -/
theorem claim_C6 (commitSha : String) :
    parseScoreCard none commitSha = ({} : Scorecard)
    ∧ fetchScoreCardWithCLI (CLIOutcome.output none) commitSha = ({} : Scorecard) :=
  ⟨rfl, rfl⟩

/-- C7: the decode-and-map logic of the remote-response path and of the
local-tool-output path agree on every decode outcome and requested
commit. -/
theorem claim_C7 (body : Option JSONScorecardResultV2) (commitSha : String) :
    parseScoreCard body commitSha = fetchScoreCardWithCLI (CLIOutcome.output body) commitSha :=
  (fetchCLI_output_eq_parse body commitSha).symm

/-- C9: the URL Normalizer maps `https://github.com/foo/bar.git` to
`github.com/foo/bar`. -/
theorem claim_C9 : cleanRepoURL "https://github.com/foo/bar.git" = "github.com/foo/bar" := by
  decide

/-- C8 counterexample: the replacement sequence is not
order-independent — the permutation that applies `git+` first is a
permutation of the seven pairs yet yields a different output on
`git+ssh://git@x`. -/
theorem claim_C8_counterexample :
    ¬ (∀ l : List (String × String), l.Perm replacements →
        ∀ s : String, applyReplacements l s = cleanRepoURL s) := by
  intro h
  have hperm : permutedReplacements.Perm replacements := by decide
  have heq := h permutedReplacements hperm "git+ssh://git@x"
  rw [show applyReplacements permutedReplacements "git+ssh://git@x" = "ssh://git@x" by decide,
      show cleanRepoURL "git+ssh://git@x" = "x" by decide] at heq
  exact absurd heq (by decide)

/-- C8 (amended): the Normalizer's result is order-dependent: moving
the `git+` replacement in front of `git+ssh://git@` — a permutation of
the seven pairs — sends `git+ssh://git@x` to `ssh://git@x`, while the
fixed order of the code sends it to `x`; the fixed order is therefore
normative. -/
theorem claim_C8 :
    permutedReplacements.Perm replacements
    ∧ applyReplacements permutedReplacements "git+ssh://git@x" = "ssh://git@x"
    ∧ cleanRepoURL "git+ssh://git@x" = "x" :=
  ⟨by decide, by decide, by decide⟩

/-- C5 counterexample: the check table recognises twenty names, not
nineteen as claimed. -/
theorem claim_C5_counterexample : checkNames.length = 20 ∧ ¬ checkNames.length = 19 := by
  decide

/-- C1 counterexample: when no commit is requested (`commitSha = ""`)
and the decoded upstream body carries an empty `Repo.Commit` (the Go
zero value for an absent field), the mapper sets `pinned` to true —
refuting the clause that `pinned` is always false when no commit was
requested. -/
theorem claim_C1_counterexample :
    ¬ ((parseScoreCard (some { Repo := { Commit := "" }, AggregateScore := 0, Checks := [] })
          "").Pinned = false) := by
  decide

/-- C1 (amended): `pinned` is true iff the upstream `Repo.Commit`
equals the requested commit under exact case-sensitive string equality
— including when no commit was requested, in which case `pinned` is
true exactly when the upstream commit field is also empty.  The
retry-without-commit tier maps its 200 response with the same logic and
the originally requested commit, so a coincidental commit match there
reports `pinned` true. -/
theorem claim_C1 (result : JSONScorecardResultV2) (commitSha : String) :
    ((parseScoreCard (some result) commitSha).Pinned = true ↔ result.Repo.Commit = commitSha)
    ∧ (∀ (token repoURL : String) (status1 : Nat) (body1 : Option JSONScorecardResultV2)
         (result2 : JSONScorecardResultV2) (cli : CLIOutcome),
         repoURL ≠ "" → commitSha ≠ "" → status1 ≠ 200 →
         ((getScorecard
             { token := token, firstResp := HTTPResult.response status1 body1,
               secondResp := HTTPResult.response 200 (some result2), cli := cli }
             repoURL commitSha).scorecard.Pinned = true
           ↔ result2.Repo.Commit = commitSha)) := by
  constructor
  · exact parseScoreCard_Pinned result commitSha
  · intro token repoURL status1 body1 result2 cli hu hc hst
    have hrun : getScorecard
        { token := token, firstResp := HTTPResult.response status1 body1,
          secondResp := HTTPResult.response 200 (some result2), cli := cli }
        repoURL commitSha
        = { scorecard := parseScoreCard (some result2) commitSha, httpCalls := 2, cliCalls := 0 } := by
      simp [getScorecard, hu, hc, hst]
    rw [hrun]
    exact parseScoreCard_Pinned result2 commitSha

/-- C1 witness: the retry tier with a coincidentally matching commit on
the latest data reports `pinned` true. -/
theorem claim_C1_witness :
    (getScorecard
        { token := "", firstResp := HTTPResult.response 404 none,
          secondResp := HTTPResult.response 200
            (some { Repo := { Commit := "abc" }, AggregateScore := 5, Checks := [] }),
          cli := CLIOutcome.runError }
        "github.com/foo/bar" "abc").scorecard.Pinned = true :=
  ((claim_C1 { Repo := { Commit := "abc" }, AggregateScore := 5, Checks := [] } "abc").2
    "" "github.com/foo/bar" 404 none
    { Repo := { Commit := "abc" }, AggregateScore := 5, Checks := [] }
    CLIOutcome.runError (by decide) (by decide) (by decide)).mpr rfl

/-- C2 counterexample: with requested commit `""` and an upstream body
whose commit field is empty, the mapped Scorecard has `pinned = true`
yet `commitSha = ""` — refuting the clause that `pinned` implies a
non-empty `commitSha`. -/
theorem claim_C2_counterexample :
    ¬ ((parseScoreCard (some { Repo := { Commit := "" }, AggregateScore := 0, Checks := [] })
          "").Pinned = true →
       (parseScoreCard (some { Repo := { Commit := "" }, AggregateScore := 0, Checks := [] })
          "").CommitSha ≠ "") := by
  decide

/-- C2 (amended): on both mapping paths, `pinned = true` implies that
`commitSha` equals the caller-requested commit; `commitSha` is moreover
non-empty whenever the requested commit is non-empty (when the
requested commit is empty, `pinned` can hold with an empty
`commitSha`). -/
theorem claim_C2 (body : Option JSONScorecardResultV2) (outcome : CLIOutcome)
    (commitSha : String) :
    ((parseScoreCard body commitSha).Pinned = true →
       (parseScoreCard body commitSha).CommitSha = commitSha)
    ∧ ((fetchScoreCardWithCLI outcome commitSha).Pinned = true →
       (fetchScoreCardWithCLI outcome commitSha).CommitSha = commitSha)
    ∧ (commitSha ≠ "" → (parseScoreCard body commitSha).Pinned = true →
       (parseScoreCard body commitSha).CommitSha ≠ "") := by
  have hparse : ∀ b : Option JSONScorecardResultV2,
      (parseScoreCard b commitSha).Pinned = true →
      (parseScoreCard b commitSha).CommitSha = commitSha := by
    intro b hp
    cases b with
    | none => exact absurd hp (by simp [parseScoreCard])
    | some result =>
      have hc : result.Repo.Commit = commitSha := (parseScoreCard_Pinned result commitSha).mp hp
      rw [parseScoreCard_CommitSha, if_pos hc]
  refine ⟨hparse body, ?_, ?_⟩
  · intro hp
    cases outcome with
    | runError => exact absurd hp (by simp [fetchScoreCardWithCLI])
    | output b =>
      rw [fetchCLI_output_eq_parse] at hp ⊢
      exact hparse b hp
  · intro hne hp
    rw [hparse body hp]
    exact hne

/-- C2 witness: a pinned mapping carries the requested commit in
`commitSha`. -/
theorem claim_C2_witness :
    (parseScoreCard (some { Repo := { Commit := "abc" }, AggregateScore := 0, Checks := [] })
        "abc").CommitSha = "abc"
    ∧ (fetchScoreCardWithCLI
        (CLIOutcome.output (some { Repo := { Commit := "abc" }, AggregateScore := 0, Checks := [] }))
        "abc").CommitSha = "abc" :=
  ⟨(claim_C2 (some { Repo := { Commit := "abc" }, AggregateScore := 0, Checks := [] })
      CLIOutcome.runError "abc").1 (by decide),
   (claim_C2 (some { Repo := { Commit := "abc" }, AggregateScore := 0, Checks := [] })
      (CLIOutcome.output (some { Repo := { Commit := "abc" }, AggregateScore := 0, Checks := [] }))
      "abc").2.1 (by decide)⟩

/-- C3: the CLI tier is invoked only when `GITHUB_TOKEN` is non-empty,
the cleaned repository URL contains `github.com`, and a commit was
requested; and when no token is set the CLI is never invoked — with the
all-zero Scorecard returned whenever in addition neither remote attempt
returned HTTP 200. -/
theorem claim_C3 (env : Env) (repoURL commitSha : String) :
    ((getScorecard env repoURL commitSha).cliCalls ≠ 0 →
       env.token ≠ "" ∧ stringContains (cleanRepoURL repoURL) "github.com" = true
         ∧ commitSha ≠ "")
    ∧ (env.token = "" →
         (getScorecard env repoURL commitSha).cliCalls = 0
         ∧ (statusOK env.firstResp = false → statusOK env.secondResp = false →
             (getScorecard env repoURL commitSha).scorecard = {})) := by
  by_cases hu : repoURL = ""
  · simp [getScorecard, hu]
  · cases hf : env.firstResp with
    | transportError => simp [getScorecard, hu, hf]
    | response status body =>
      by_cases hst : status = 200
      · subst hst
        simp [getScorecard, statusOK, hu, hf]
      · by_cases hcs : commitSha = ""
        · simp [getScorecard, finalTier, hu, hf, hst, hcs]
        · cases hs : env.secondResp with
          | transportError => simp [getScorecard, hu, hf, hst, hcs, hs]
          | response status2 body2 =>
            by_cases hst2 : status2 = 200
            · subst hst2
              simp [getScorecard, statusOK, hu, hf, hst, hcs, hs]
            · by_cases hcond : env.token ≠ ""
                ∧ stringContains (cleanRepoURL repoURL) "github.com" = true ∧ commitSha ≠ ""
              · constructor
                · intro _
                  exact hcond
                · intro htok
                  exact absurd htok hcond.1
              · have hrun : getScorecard env repoURL commitSha
                    = { scorecard := {}, httpCalls := 2, cliCalls := 0 } := by
                  unfold getScorecard
                  rw [if_neg hu, hf]
                  dsimp only []
                  rw [if_neg hst, if_pos hcs, hs]
                  dsimp only []
                  rw [if_neg hst2]
                  unfold finalTier
                  rw [if_neg hcond]
                simp [hrun]

/-- C3 witness: with no token set and both remote lookups failing, the
CLI is not invoked and the response is the all-zero Scorecard. -/
theorem claim_C3_witness :
    (getScorecard
        { token := "", firstResp := HTTPResult.transportError,
          secondResp := HTTPResult.transportError, cli := CLIOutcome.runError }
        "github.com/foo/bar" "abc").cliCalls = 0
    ∧ (getScorecard
        { token := "", firstResp := HTTPResult.transportError,
          secondResp := HTTPResult.transportError, cli := CLIOutcome.runError }
        "github.com/foo/bar" "abc").scorecard = {} := by
  have h := (claim_C3
    { token := "", firstResp := HTTPResult.transportError,
      secondResp := HTTPResult.transportError, cli := CLIOutcome.runError }
    "github.com/foo/bar" "abc").2 rfl
  exact ⟨h.1, h.2 rfl rfl⟩

/-- C5 (amended): for a well-formed upstream body whose checks
collection is a single entry named after one of the twenty (not
nineteen) recognised check names, the mapper assigns that entry's score
to the corresponding field and leaves every other check field at zero;
and a check entry whose name is not recognised leaves the scorecard
unchanged. -/
theorem claim_C5 (i : Fin checkFields.length) (repo : JSONRepoV2) (agg score : Rat)
    (commitSha : String) :
    ((checkFields.get i).2 (parseScoreCard
        (some { Repo := repo, AggregateScore := agg,
                Checks := [{ Name := (checkFields.get i).1, Score := score }] })
        commitSha) = score
     ∧ ∀ j : Fin checkFields.length, j ≠ i →
        (checkFields.get j).2 (parseScoreCard
          (some { Repo := repo, AggregateScore := agg,
                  Checks := [{ Name := (checkFields.get i).1, Score := score }] })
          commitSha) = 0)
    ∧ (∀ (name : String) (scorecard : Scorecard) (s : Rat), name ∉ checkNames →
        applyCheckParse scorecard { Name := name, Score := s } = scorecard) := by
  refine ⟨⟨?_, ?_⟩, ?_⟩
  · rw [parseScoreCard_field]
    have hl : lastMatching (checkFields.get i).1
        [{ Name := (checkFields.get i).1, Score := score }]
        = some { Name := (checkFields.get i).1, Score := score } := by
      unfold lastMatching
      rw [List.reverse_cons, List.reverse_nil, List.nil_append]
      exact List.find?_cons_of_pos _ (beq_self_eq_true (checkFields.get i).1)
    rw [hl]
  · intro j hj
    rw [parseScoreCard_field]
    have hne : (checkFields.get i).1 ≠ (checkFields.get j).1 := fun hEq =>
      hj (checkFields_names_inj i j hEq).symm
    have hl : lastMatching (checkFields.get j).1
        [{ Name := (checkFields.get i).1, Score := score }] = none := by
      unfold lastMatching
      rw [List.reverse_cons, List.reverse_nil, List.nil_append]
      refine (List.find?_cons_of_neg _ ?_).trans rfl
      exact fun hc => hne (eq_of_beq hc)
    rw [hl]
  · intro name scorecard s hname
    exact applyCheckParse_unknown scorecard { Name := name, Score := s } hname

/-- C5 witness: a single `Maintained` check sets the `Maintained` field
and leaves another check field at zero, and an unrecognised name leaves
the scorecard untouched. -/
theorem claim_C5_witness :
    (parseScoreCard
        (some { Repo := {}, AggregateScore := 0,
                Checks := [{ Name := "Maintained", Score := 4 }] })
        "").Maintained = 4
    ∧ (parseScoreCard
        (some { Repo := {}, AggregateScore := 0,
                Checks := [{ Name := "Maintained", Score := 4 }] })
        "").CodeReview = 0
    ∧ applyCheckParse {} { Name := "Unknown-Check", Score := 3 } = {} := by
  have h := claim_C5 ⟨0, by decide⟩ {} 0 4 ""
  exact ⟨h.1.1, h.1.2 ⟨1, by decide⟩ (by decide), h.2 "Unknown-Check" {} 3 (by decide)⟩

/-- C10: when the upstream checks collection contains several entries
with the same recognised name, the mapped field carries the score of
the last such entry in collection order, on both mapping paths. -/
theorem claim_C10 (i : Fin checkFields.length) (result : JSONScorecardResultV2)
    (commitSha : String) (check : JSONCheckResultV2)
    (hlast : lastMatching (checkFields.get i).1 result.Checks = some check) :
    (checkFields.get i).2 (parseScoreCard (some result) commitSha) = check.Score
    ∧ (checkFields.get i).2 (fetchScoreCardWithCLI (CLIOutcome.output (some result)) commitSha)
        = check.Score := by
  constructor
  · rw [parseScoreCard_field, hlast]
  · rw [fetchCLI_output_eq_parse, parseScoreCard_field, hlast]

/-- C10 witness: two `Maintained` entries — the later one wins on both
paths. -/
theorem claim_C10_witness :
    (parseScoreCard
        (some { Repo := {}, AggregateScore := 0,
                Checks := [{ Name := "Maintained", Score := 3 },
                           { Name := "Maintained", Score := 7 }] })
        "").Maintained = 7
    ∧ (fetchScoreCardWithCLI
        (CLIOutcome.output
          (some { Repo := {}, AggregateScore := 0,
                  Checks := [{ Name := "Maintained", Score := 3 },
                             { Name := "Maintained", Score := 7 }] }))
        "").Maintained = 7 :=
  claim_C10 ⟨0, by decide⟩
    { Repo := {}, AggregateScore := 0,
      Checks := [{ Name := "Maintained", Score := 3 },
                 { Name := "Maintained", Score := 7 }] }
    "" { Name := "Maintained", Score := 7 } (by decide)
